import Mathlib

/-!
# Verification of the ynab-trading212-sync reconciliation engine

A shallow embedding, in Lean 4, of the reconciliation core of
`src/worker.ts` (the `syncAccount` function and its helpers), together
with theorems settling the specification claims about it.

Modelling conventions:

* JavaScript numbers are modelled by `JsNum`: an exact rational together
  with the IEEE special values `+Infinity`, `-Infinity` and `NaN`, and
  the JavaScript value `undefined` (which coerces to `NaN` under
  arithmetic).  Double-precision rounding is not modelled; every
  computation the claims exercise is exact in double precision or is a
  statement about the special values, where the model agrees with IEEE
  semantics.
* Strings are Lean `String`s; the string algorithms of the source
  (`split`, `padEnd`, `parseInt`, `startsWith`, the memo regular
  expression) are implemented over `List Char`.
* The `dayjs` timestamp is modelled by its ISO string rendering; the
  `format('YYYY-MM-DD')` call is modelled as taking the first ten
  characters of that string.
-/

/-! ## JavaScript number model -/

/-- A JavaScript number (IEEE double modelled as an exact rational plus
special values), or the JavaScript value `undefined`. -/
inductive JsNum where
  | num (q : ℚ)
  | posInf
  | negInf
  | nan
  | undef
deriving DecidableEq, Repr

namespace JsNum

/-- JS `ToNumber` coercion as applied to our values: `undefined` becomes
`NaN`, numbers are unchanged. -/
def toNumber : JsNum → JsNum
  | undef => nan
  | x => x

/-- JS unary minus. `-undefined` is `NaN`. -/
def jneg : JsNum → JsNum
  | num a => num (-a)
  | posInf => negInf
  | negInf => posInf
  | _ => nan

/-- JS addition. -/
def jadd (x y : JsNum) : JsNum :=
  match toNumber x, toNumber y with
  | num a, num b => num (a + b)
  | num _, posInf => posInf
  | posInf, num _ => posInf
  | posInf, posInf => posInf
  | num _, negInf => negInf
  | negInf, num _ => negInf
  | negInf, negInf => negInf
  | _, _ => nan

/-- JS subtraction, `x - y = x + (-y)` (exact in IEEE as well). -/
def jsub (x y : JsNum) : JsNum := jadd x (jneg y)

/-- JS multiplication; `0 * ±Infinity` is `NaN`. -/
def jmul (x y : JsNum) : JsNum :=
  match toNumber x, toNumber y with
  | num a, num b => num (a * b)
  | num a, posInf => if 0 < a then posInf else if a < 0 then negInf else nan
  | num a, negInf => if 0 < a then negInf else if a < 0 then posInf else nan
  | posInf, num b => if 0 < b then posInf else if b < 0 then negInf else nan
  | negInf, num b => if 0 < b then negInf else if b < 0 then posInf else nan
  | posInf, posInf => posInf
  | posInf, negInf => negInf
  | negInf, posInf => negInf
  | negInf, negInf => posInf
  | _, _ => nan

/-- JS division; a nonzero finite number divided by `0` gives a signed
infinity, `0 / 0` gives `NaN`.  (Negative zero is not modelled; the
replayed positions only ever divide by the stored quantity, which is
`+0` when no stock has been accumulated.) -/
def jdiv (x y : JsNum) : JsNum :=
  match toNumber x, toNumber y with
  | num a, num b =>
      if b = 0 then (if 0 < a then posInf else if a < 0 then negInf else nan)
      else num (a / b)
  | num _, posInf => num 0
  | num _, negInf => num 0
  | posInf, num b => if 0 ≤ b then posInf else negInf
  | negInf, num b => if 0 ≤ b then negInf else posInf
  | _, _ => nan

/-- JS `Math.abs`. -/
def jabs : JsNum → JsNum
  | num a => num |a|
  | posInf => posInf
  | negInf => posInf
  | _ => nan

/-- JS `Math.round`: round half toward positive infinity. -/
def jround : JsNum → JsNum
  | num q => num ((⌊q + 1/2⌋ : ℤ) : ℚ)
  | posInf => posInf
  | negInf => negInf
  | _ => nan

/-- JS comparison `x > 0` (false on `NaN` and `undefined`). -/
def jgt0 : JsNum → Bool
  | num a => decide (0 < a)
  | posInf => true
  | _ => false

/-- JS comparison `x <= 0` (false on `NaN` and `undefined`). -/
def jle0 : JsNum → Bool
  | num a => decide (a ≤ 0)
  | negInf => true
  | _ => false

/-- JS `x ?? 0`: nullish coalescing against the literal `0`. -/
def coalesce0 : JsNum → JsNum
  | undef => num 0
  | x => x

end JsNum

/-- A `number` produced by a parse that yields an integer when it
succeeds and `NaN` when it fails. -/
def jsOfOption : Option ℤ → JsNum
  | some n => JsNum.num (n : ℚ)
  | none => JsNum.nan

/-! ## Character and digit-string helpers -/

/-- The numeric value of a digit-character list read in base 10
(`'1','2','3'` stands for `123`); the accumulator form used by all
parsing functions. -/
def digitsToNat (cs : List Char) : ℕ :=
  cs.foldl (fun a c => 10 * a + (c.toNat - 48)) 0

/-- Decimal digit characters, fuel-driven worker (structural recursion
on the fuel keeps the definition kernel-reducible). -/
def natDigitsF : ℕ → ℕ → List Char
  | 0, _ => []
  | fuel + 1, n =>
      if n < 10 then [Nat.digitChar n]
      else natDigitsF fuel (n / 10) ++ [Nat.digitChar (n % 10)]

/-- Decimal digit characters of `n`, most significant first. -/
def natDigits (n : ℕ) : List Char := natDigitsF (n + 1) n

/-- `natDigits` packaged as a `String` (the decimal rendering used by
template-literal interpolation of a natural number). -/
def natReprS (n : ℕ) : String := ⟨natDigits n⟩

/-- The maximal leading run of decimal digits of `cs`, parsed in base
10; `none` when `cs` does not start with a digit.  Models the digit
consumption of JS `parseInt` (radix auto-detection for `0x` is not
modelled: no input of this program starts with `0x`). -/
def parseNatJS (cs : List Char) : Option ℕ :=
  let ds := cs.takeWhile Char.isDigit
  if ds.isEmpty then none else some (digitsToNat ds)

/-- JS `parseInt(s)` on already-trimmed input: an optional sign followed
by a maximal digit run; `none` models `NaN`. -/
def parseIntJS (cs : List Char) : Option ℤ :=
  match cs with
  | c :: rest =>
      if c = '-' then (parseNatJS rest).map (fun n => -(n : ℤ))
      else if c = '+' then (parseNatJS rest).map (fun n => (n : ℤ))
      else (parseNatJS cs).map (fun n => (n : ℤ))
  | [] => none

/-- The first two components of JS `s.split('.')`, the second
defaulting to the empty string:
`const [fixedAmount, decimalAmount = ''] = s.split('.')`. -/
def splitDot1 (cs : List Char) : List Char × List Char :=
  (cs.takeWhile (fun c => c ≠ '.'),
   ((cs.dropWhile (fun c => c ≠ '.')).drop 1).takeWhile (fun c => c ≠ '.'))

/-- JS `s.padEnd(n, '0')`. -/
def padEndZeros (cs : List Char) (n : ℕ) : List Char :=
  cs ++ List.replicate (n - cs.length) '0'

/-! ## The fixed-point codec (`parseAmount` and friends) -/

/-- `parseAmount(amount, inputPrecision, outputFactor)` of the source:
split on the decimal point, pad the fractional part with trailing zeros
to `inputPrecision` digits, concatenate, `parseInt`, multiply by
`outputFactor`.  `none` models the `NaN` result of a failed
`parseInt`. -/
def parseAmountL (s : List Char) (inputPrecision : ℕ) (outputFactor : ℤ) : Option ℤ :=
  let p := splitDot1 s
  (parseIntJS (p.1 ++ padEndZeros p.2 inputPrecision)).map (fun n => n * outputFactor)

/-- `parseMoney(amount) = parseAmount(amount, 2, 10)`. -/
def parseMoneyL (s : List Char) : Option ℤ := parseAmountL s 2 10

/-- `parseT212StockQuantity(amount) = parseAmount(amount, 10, 1)`. -/
def parseT212StockQuantityL (s : List Char) : Option ℤ := parseAmountL s 10 1

/-- Exact-rational value of an unsigned plain decimal literal
(`digits`, or `digits.digits`, or `.digits`); `none` when no digit is
present. -/
def parseDecM (cs : List Char) : Option ℚ :=
  let ds1 := cs.takeWhile Char.isDigit
  match cs.drop ds1.length with
  | '.' :: rest2 =>
      let ds2 := rest2.takeWhile Char.isDigit
      if ds1.isEmpty ∧ ds2.isEmpty then none
      else some ((digitsToNat ds1 : ℚ) + (digitsToNat ds2 : ℚ) / 10 ^ ds2.length)
  | _ => if ds1.isEmpty then none else some (digitsToNat ds1)

/-- JS `parseFloat` on the plain decimal strings of the export (an
optional sign and a decimal literal; exponent forms do not occur in the
export and are not modelled); failure gives `NaN`. -/
def parseFloatJS (cs : List Char) : JsNum :=
  match cs with
  | c :: rest =>
      if c = '-' then
        match parseDecM rest with
        | some q => JsNum.num (-q)
        | none => JsNum.nan
      else if c = '+' then
        match parseDecM rest with
        | some q => JsNum.num q
        | none => JsNum.nan
      else
        match parseDecM cs with
        | some q => JsNum.num q
        | none => JsNum.nan
  | [] => JsNum.nan

/-- The `optionalFloat` schema transform applied to the raw
`No. of shares` column: the empty string becomes `undefined`, any other
string is `parseFloat`ed.  This is how the parsed transaction's
`shareCount` field is produced. -/
def schemaShareCount (raw : List Char) : JsNum :=
  if raw.isEmpty then JsNum.undef else parseFloatJS raw

/-- The `optionalMoney` schema transform: the empty string becomes
`undefined`, any other string goes through `parseMoney`. -/
def schemaMoney (raw : List Char) : JsNum :=
  if raw.isEmpty then JsNum.undef else jsOfOption (parseMoneyL raw)

/-! ## Canonical 2-decimal money rendering (for the round-trip claim) -/

/-- Exactly two decimal digits: the fractional part of a 2-decimal
money rendering of `d < 100` hundredths. -/
def twoDigits (d : ℕ) : List Char :=
  [Nat.digitChar (d / 10 % 10), Nat.digitChar (d % 10)]

/-- Canonical 2-decimal rendering of a non-negative amount of `m`
hundredths (cents): integer part, point, two fractional digits. -/
def formatCentsNat (m : ℕ) : List Char :=
  natDigits (m / 100) ++ '.' :: twoDigits (m % 100)

/-- Canonical 2-decimal rendering of `n` hundredths, with a leading
minus sign when negative. -/
def formatCentsL (n : ℤ) : List Char :=
  if n < 0 then '-' :: formatCentsNat n.natAbs else formatCentsNat n.natAbs

/-- The reformatting step of the round-trip claim: a parsed value `n`
(in thousandth units) divided by 1000 and rendered to two decimal
places, i.e. the canonical rendering of `n / 10` hundredths.  (The
values produced by `parseMoney` are always multiples of 10, so the
division is exact.) -/
def reformat2dp (n : ℤ) : List Char := formatCentsL (n / 10)

/-- The number of characters after the first `'.'` of a string — its
count of fractional digits when the string is a plain decimal. -/
def fracDigitCount (cs : List Char) : ℕ :=
  ((cs.dropWhile (fun c => c ≠ '.')).drop 1).length

/-! ## SHA-256 (for `createImportId`)

A byte-level implementation of FIPS 180-4 SHA-256 over `ℕ`, with 32-bit
words represented as naturals reduced modulo `2 ^ 32`. -/

/-- UTF-8 encoding of a single code point (as `crypto`'s
`hash.update(data)` encodes its string argument). -/
def utf8EncodeChar (n : ℕ) : List ℕ :=
  if n < 128 then [n]
  else if n < 2048 then [192 + n / 64, 128 + n % 64]
  else if n < 65536 then [224 + n / 4096, 128 + n / 64 % 64, 128 + n % 64]
  else [240 + n / 262144, 128 + n / 4096 % 64, 128 + n / 64 % 64, 128 + n % 64]

/-- UTF-8 bytes of a character list. -/
def utf8Bytes (cs : List Char) : List ℕ :=
  cs.flatMap (fun c => utf8EncodeChar c.toNat)

/-- `2 ^ 32`, the word modulus. -/
def MOD32 : ℕ := 4294967296

/-- Right rotation of a 32-bit word. -/
def rotr32 (n x : ℕ) : ℕ := x / 2 ^ n + x % 2 ^ n * 2 ^ (32 - n)

/-- Logical right shift of a 32-bit word. -/
def shr32 (n x : ℕ) : ℕ := x / 2 ^ n

/-- Three-way exclusive or. -/
def xor3 (a b c : ℕ) : ℕ := Nat.xor (Nat.xor a b) c

/-- σ₀ of the SHA-256 message schedule. -/
def smallSigma0 (x : ℕ) : ℕ := xor3 (rotr32 7 x) (rotr32 18 x) (shr32 3 x)

/-- σ₁ of the SHA-256 message schedule. -/
def smallSigma1 (x : ℕ) : ℕ := xor3 (rotr32 17 x) (rotr32 19 x) (shr32 10 x)

/-- Σ₀ of the SHA-256 compression function. -/
def bigSigma0 (x : ℕ) : ℕ := xor3 (rotr32 2 x) (rotr32 13 x) (rotr32 22 x)

/-- Σ₁ of the SHA-256 compression function. -/
def bigSigma1 (x : ℕ) : ℕ := xor3 (rotr32 6 x) (rotr32 11 x) (rotr32 25 x)

/-- The SHA-256 choice function `(x ∧ y) ⊕ (¬x ∧ z)` on 32-bit words. -/
def chFn (x y z : ℕ) : ℕ :=
  Nat.xor (Nat.land x y) (Nat.land (Nat.xor x 4294967295) z)

/-- The SHA-256 majority function. -/
def majFn (x y z : ℕ) : ℕ :=
  xor3 (Nat.land x y) (Nat.land x z) (Nat.land y z)

/-- The 64 SHA-256 round constants of FIPS 180-4 (in decimal). -/
def sha256K : List ℕ :=
  [1116352408, 1899447441, 3049323471, 3921009573, 961987163,
   1508970993, 2453635748, 2870763221, 3624381080, 310598401,
   607225278, 1426881987, 1925078388, 2162078206, 2614888103,
   3248222580, 3835390401, 4022224774, 264347078, 604807628,
   770255983, 1249150122, 1555081692, 1996064986, 2554220882,
   2821834349, 2952996808, 3210313671, 3336571891, 3584528711,
   113926993, 338241895, 666307205, 773529912, 1294757372,
   1396182291, 1695183700, 1986661051, 2177026350, 2456956037,
   2730485921, 2820302411, 3259730800, 3345764771, 3516065817,
   3600352804, 4094571909, 275423344, 430227734, 506948616,
   659060556, 883997877, 958139571, 1322822218, 1537002063,
   1747873779, 1955562222, 2024104815, 2227730452, 2361852424,
   2428436474, 2756734187, 3204031479, 3329325298]

/-- The running hash / working variables of SHA-256 (eight 32-bit
words). -/
structure Sha256State where
  a : ℕ
  b : ℕ
  c : ℕ
  d : ℕ
  e : ℕ
  f : ℕ
  g : ℕ
  h : ℕ
deriving DecidableEq, Repr

/-- The SHA-256 initial hash value of FIPS 180-4 (in decimal). -/
def sha256H0 : Sha256State :=
  ⟨1779033703, 3144134277, 1013904242, 2773480762,
   1359893119, 2600822924, 528734635, 1541459225⟩

/-- Big-endian 8-byte rendering of the bit length. -/
def lengthBytes (n : ℕ) : List ℕ :=
  [n / 2 ^ 56 % 256, n / 2 ^ 48 % 256, n / 2 ^ 40 % 256, n / 2 ^ 32 % 256,
   n / 2 ^ 24 % 256, n / 2 ^ 16 % 256, n / 2 ^ 8 % 256, n % 256]

/-- SHA-256 padding: a `0x80` byte, zeros to 56 mod 64, and the 64-bit
big-endian message bit length. -/
def padMessage (msg : List ℕ) : List ℕ :=
  msg ++ 128 :: List.replicate ((64 - (msg.length + 9) % 64) % 64) 0
      ++ lengthBytes (8 * msg.length)

/-- Split a byte list into 64-byte chunks, fuel-driven worker. -/
def toChunksF : ℕ → List ℕ → List (List ℕ)
  | 0, _ => []
  | _, [] => []
  | fuel + 1, l => l.take 64 :: toChunksF fuel (l.drop 64)

/-- Split a byte list into 64-byte chunks. -/
def toChunks (l : List ℕ) : List (List ℕ) := toChunksF l.length l

/-- Big-endian 32-bit words of a byte list. -/
def bytesToWords : List ℕ → List ℕ
  | b0 :: b1 :: b2 :: b3 :: rest => (((b0 * 256 + b1) * 256 + b2) * 256 + b3) :: bytesToWords rest
  | _ => []

/-- The next word of the SHA-256 message schedule, from the most recent
sixteen. -/
def nextScheduleWord (w : List ℕ) : ℕ :=
  let i := w.length
  (w.getD (i - 16) 0 + smallSigma0 (w.getD (i - 15) 0) + w.getD (i - 7) 0 +
      smallSigma1 (w.getD (i - 2) 0)) % MOD32

/-- Extend the 16-word schedule by `k` further words. -/
def extendSchedule (w : List ℕ) : ℕ → List ℕ
  | 0 => w
  | k + 1 => extendSchedule (w ++ [nextScheduleWord w]) k

/-- One SHA-256 round, consuming a `(k, w)` constant/schedule pair. -/
def sha256Round (s : Sha256State) (kw : ℕ × ℕ) : Sha256State :=
  let t1 := (s.h + bigSigma1 s.e + chFn s.e s.f s.g + kw.1 + kw.2) % MOD32
  let t2 := (bigSigma0 s.a + majFn s.a s.b s.c) % MOD32
  ⟨(t1 + t2) % MOD32, s.a, s.b, s.c, (s.d + t1) % MOD32, s.e, s.f, s.g⟩

/-- Process one 64-byte chunk: 64 rounds, then add the working
variables back into the running hash. -/
def processChunk (s : Sha256State) (chunk : List ℕ) : Sha256State :=
  let w := extendSchedule (bytesToWords chunk) 48
  let t := (sha256K.zip w).foldl sha256Round s
  ⟨(s.a + t.a) % MOD32, (s.b + t.b) % MOD32, (s.c + t.c) % MOD32, (s.d + t.d) % MOD32,
   (s.e + t.e) % MOD32, (s.f + t.f) % MOD32, (s.g + t.g) % MOD32, (s.h + t.h) % MOD32⟩

/-- SHA-256 of a byte list. -/
def sha256 (msg : List ℕ) : Sha256State :=
  (toChunks (padMessage msg)).foldl processChunk sha256H0

/-- Lowercase hex digits of one 32-bit word. -/
def toHex8 (w : ℕ) : List Char :=
  [Nat.digitChar (w / 16 ^ 7 % 16), Nat.digitChar (w / 16 ^ 6 % 16),
   Nat.digitChar (w / 16 ^ 5 % 16), Nat.digitChar (w / 16 ^ 4 % 16),
   Nat.digitChar (w / 16 ^ 3 % 16), Nat.digitChar (w / 16 ^ 2 % 16),
   Nat.digitChar (w / 16 % 16), Nat.digitChar (w % 16)]

/-- `hash.digest('hex')`: the 64 lowercase hex characters of the
digest. -/
def hexDigest (s : Sha256State) : List Char :=
  toHex8 s.a ++ toHex8 s.b ++ toHex8 s.c ++ toHex8 s.d ++
  toHex8 s.e ++ toHex8 s.f ++ toHex8 s.g ++ toHex8 s.h

/-! ## Import identities -/

/-- `IMPORT_ID_VERSION` of the source. -/
def IMPORT_ID_VERSION : ℕ := 14

/-- The unversioned import-id marker, `IMPORT_PREFIX` of the source. -/
def importMark : String := "T212-"

/-- The versioned import-id marker,
`VERSIONED_IMPORT_PREFIX = IMPORT_PREFIX + 'v' + IMPORT_ID_VERSION + ':'`. -/
def versionedImportMark : String := importMark ++ "v" ++ natReprS IMPORT_ID_VERSION ++ ":"

/-- `createImportId(data)` on character lists: versioned marker plus
hex SHA-256 digest, truncated to 36 characters. -/
def createImportIdL (data : List Char) : List Char :=
  (versionedImportMark.data ++ hexDigest (sha256 (utf8Bytes data))).take 36

/-- `createImportId(data)` of the source. -/
def createImportId (data : String) : String := ⟨createImportIdL data.data⟩

/-- SHA-256 test vector: the digest of `"abc"` (checks the hash
implementation against FIPS 180-4). -/
theorem sha256_abc_vector :
    hexDigest (sha256 (utf8Bytes "abc".data)) =
      "ba7816bf8f01cfea414140de5dae2223b00361a396177a9cb410ff61f20015ad".data := by
  decide

/-! ## Data model -/

/-- The nine recognized `Trading212Action` kinds. -/
inductive Trading212Action where
  | Deposit
  | Withdrawal
  | MarketBuy
  | MarketSell
  | Dividend
  | InterestOnCash
  | LendingInterest
  | CurrencyConversion
  | NewCardCost
deriving DecidableEq, Repr

/-- The string value of each action in the source enum (the CSV
`Action` column values). -/
def Trading212Action.str : Trading212Action → String
  | .Deposit => "Deposit"
  | .Withdrawal => "Withdrawal"
  | .MarketBuy => "Market buy"
  | .MarketSell => "Market sell"
  | .Dividend => "Dividend (Dividend)"
  | .InterestOnCash => "Interest on cash"
  | .LendingInterest => "Lending interest"
  | .CurrencyConversion => "Currency conversion"
  | .NewCardCost => "New card cost"

/-- A validated transaction (`Trading212Transaction` of the source,
i.e. the output of `Trading212TransactionSchema`).  `Option String`
fields model the `optionalString` transform (empty string becomes
`undefined`); `JsNum` fields model numbers that may be `undefined` or
`NaN`.  The `dayjs` timestamp is kept as its string rendering. -/
structure Trading212Transaction where
  action : Trading212Action
  timestamp : String
  isin : Option String := none
  ticker : Option String := none
  name : Option String := none
  shareCount : JsNum := .undef
  pricePerShare : JsNum := .undef
  pricePerShareCurrency : Option String := none
  exchangeRate : JsNum := .undef
  result : JsNum := .undef
  resultCurrency : Option String := none
  total : JsNum := .undef
  totalCurrency : Option String := none
  withholdingTax : JsNum := .undef
  withholdingTaxCurrency : Option String := none
  notes : Option String := none
  id : String
  conversionFromAmount : JsNum := .undef
  conversionFromCurrency : Option String := none
  conversionToAmount : JsNum := .undef
  conversionToCurrency : Option String := none
  conversionFee : JsNum := .undef
  conversionFeeCurrency : Option String := none
deriving DecidableEq, Repr

/-- A split sub-entry of a ledger entry (YNAB `SaveSubTransaction`). -/
structure SubTransaction where
  amount : JsNum
  payee_name : Option String := none
  payee_id : Option String := none
  memo : Option String := none
  category_id : Option String := none
deriving DecidableEq, Repr

/-- YNAB cleared status. -/
inductive ClearedStatus where
  | cleared
  | uncleared
  | reconciled
deriving DecidableEq, Repr

/-- A ledger entry: covers both the existing transactions fetched from
the ledger and the entries this system creates or updates.  Absent
fields are `none`. -/
structure LedgerEntry where
  account_id : String := ""
  date : String := ""
  cleared : ClearedStatus := .cleared
  amount : JsNum := .undef
  payee_name : Option String := none
  payee_id : Option String := none
  memo : Option String := none
  category_id : Option String := none
  flag_color : Option String := none
  approved : Option Bool := none
  import_id : Option String := none
  id : Option String := none
  subtransactions : List SubTransaction := []
deriving DecidableEq, Repr

/-- A ledger payee. -/
structure Payee where
  id : String
  name : String
deriving DecidableEq, Repr

/-- An entry of the instrument catalog
(`trading212API.metadata.getInstruments()`). -/
structure Instrument where
  isin : String
  ticker : String
  name : String
  shortName : String
deriving DecidableEq, Repr

/-- One live open position (value of the `t212Positions` map): the
quantity in 1e-10-share units and the unrealized P&L in
thousandth-units. -/
structure T212Position where
  quantity : JsNum
  ppl : JsNum
deriving DecidableEq, Repr

/-- Per-ISIN replayed position state. -/
structure Position where
  quantity : JsNum
  totalAmount : JsNum
  unclearedId : Option String := none
deriving DecidableEq, Repr

/-- The context `syncAccount` classifies against: account identity and
currency, the fetched payees, the existing ledger entries, and the
optional category ids from the environment. -/
structure SyncContext where
  account_id : String
  accountCurrency : String
  payees : List Payee := []
  existing : List LedgerEntry := []
  stockCategoryId : Option String := none
  dividendCategoryId : Option String := none
  conversionFeeCategoryId : Option String := none
deriving DecidableEq, Repr

/-! ## String helpers shared by the classifier and reconciler -/

/-- JS `p.startsWith(q)` is `q.isPrefixOf p` on the character lists. -/
def strStarts (q p : String) : Bool := q.data.isPrefixOf p.data

/-- Template-literal interpolation of a possibly-undefined string. -/
def optStr : Option String → String
  | some s => s
  | none => "undefined"

/-- Decimal exponent of a rational: the least `k ≤ 20` such that
`q * 10 ^ k` is integral (21 when none is). -/
def decExp (q : ℚ) : ℕ :=
  (((List.range 21).find? (fun k => (q * 10 ^ k).den == 1)).getD 21)

/-- Zero-pad a digit list on the left to length `k`. -/
def padLeftZeros (cs : List Char) (k : ℕ) : List Char :=
  List.replicate (k - cs.length) '0' ++ cs

/-- Decimal rendering of a rational with terminating decimal expansion
(sign, integer digits, then fractional digits when any).  Models the JS
`Number` to string conversion for the exactly-representable decimal
values this program manipulates. -/
def renderQ (q : ℚ) : List Char :=
  let sgn : List Char := if q < 0 then ['-'] else []
  let a : ℚ := |q|
  let k := decExp a
  let n := (a * 10 ^ k).num.toNat
  if k = 0 then sgn ++ natDigits n
  else sgn ++ natDigits (n / 10 ^ k) ++ '.' :: padLeftZeros (natDigits (n % 10 ^ k)) k

/-- Template-literal interpolation of a `JsNum`. -/
def renderJsNum : JsNum → String
  | .num q => ⟨renderQ q⟩
  | .posInf => "Infinity"
  | .negInf => "-Infinity"
  | .nan => "NaN"
  | .undef => "undefined"

/-- `timestamp.utc().format('YYYY-MM-DD')`: the UTC calendar date, the
first ten characters of the ISO timestamp rendering. -/
def utcDate (ts : String) : String := ⟨ts.data.take 10⟩

/-- The import-identity seed of a source transaction,
`` `${t212Transaction.timestamp}:${t212Transaction.id}` ``. -/
def txSeed (tx : Trading212Transaction) : String := tx.timestamp ++ ":" ++ tx.id

/-! ## The transaction classifier

The body of the `for (const t212Transaction of trading212Transactions)`
loop of `syncAccount`, as a function from one transaction to the list
of entries it pushes onto `transactionsToAdd` (zero or one entries; a
currency-conversion-fee split is a single entry carrying two
sub-entries). -/

/-- Classify one transaction against the sync context. -/
def classify (ctx : SyncContext) (tx : Trading212Transaction) : List LedgerEntry :=
  let date := utcDate tx.timestamp
  let import_id := createImportId (txSeed tx)
  if ctx.existing.any (fun t => t.import_id == some import_id) then []
  else if tx.totalCurrency.isSome && tx.totalCurrency != some ctx.accountCurrency then []
  else
    match tx.action with
    | .Deposit | .Withdrawal =>
        [{ account_id := ctx.account_id, date, cleared := .cleared,
           amount := tx.total,
           payee_name := some tx.action.str,
           memo := tx.notes,
           import_id := some import_id }]
    | .InterestOnCash | .LendingInterest =>
        [{ account_id := ctx.account_id, date, cleared := .cleared,
           amount := tx.total,
           payee_name := some "Interest",
           memo := if tx.action = .LendingInterest then some "Lending interest" else none,
           flag_color := some "purple",
           approved := some (tx.action = .InterestOnCash),
           import_id := some import_id }]
    | .MarketBuy | .MarketSell =>
        let isInflow := tx.action = .MarketSell
        let amount := JsNum.jmul (JsNum.jabs tx.total) (.num (if isInflow then 1 else -1))
        let conversionFee := JsNum.coalesce0 tx.conversionFee
        let stockAmount := JsNum.jadd amount conversionFee
        let payee_name := "Stock: " ++ optStr tx.name
        let payee_id := (ctx.payees.find? (fun p => p.name == payee_name)).map Payee.id
        let memo := renderJsNum tx.shareCount ++ "x " ++ optStr tx.ticker ++
          " [" ++ optStr tx.isin ++ "]"
        let base : LedgerEntry :=
          { category_id := ctx.stockCategoryId,
            account_id := ctx.account_id, date, cleared := .cleared,
            amount, payee_name := some payee_name, payee_id,
            memo := some memo, approved := some true, import_id := some import_id }
        if JsNum.jgt0 conversionFee then
          [{ base with subtransactions :=
              [{ amount := stockAmount, payee_name := some payee_name, payee_id,
                 memo := some memo, category_id := ctx.stockCategoryId },
               { amount := JsNum.jneg conversionFee,
                 payee_name := some "Trading 212",
                 memo := some "Currency conversion fee",
                 category_id := ctx.conversionFeeCategoryId }] }]
        else [base]
    | .Dividend =>
        let payee_name := "Stock: " ++ optStr tx.name
        let payee_id := (ctx.payees.find? (fun p => p.name == payee_name)).map Payee.id
        let memo := "Dividend - " ++ renderJsNum tx.shareCount ++ "x " ++
          optStr tx.ticker ++ " [" ++ optStr tx.isin ++ "]"
        [{ category_id := ctx.dividendCategoryId,
           account_id := ctx.account_id, date, cleared := .cleared,
           amount := tx.total, payee_name := some payee_name, payee_id,
           memo := some memo, import_id := some import_id }]
    | .CurrencyConversion =>
        if tx.conversionFromCurrency == some ctx.accountCurrency then
          [{ account_id := ctx.account_id, date, cleared := .cleared,
             amount := JsNum.jneg tx.conversionFromAmount,
             payee_name := some ("Exchanged to " ++ optStr tx.conversionToCurrency),
             memo := tx.notes, approved := some true, import_id := some import_id }]
        else if tx.conversionToCurrency == some ctx.accountCurrency then
          [{ account_id := ctx.account_id, date, cleared := .cleared,
             amount := tx.conversionToAmount,
             payee_name := some ("Exchanged from " ++ optStr tx.conversionFromCurrency),
             memo := tx.notes, approved := some true, import_id := some import_id }]
        else []
    | .NewCardCost =>
        [{ account_id := ctx.account_id, date, cleared := .cleared,
           amount := tx.total,
           payee_name := some "Trading 212",
           memo := some "New card",
           import_id := some import_id }]

/-! ## The position reconciler: replay of stock entries -/

/-- The last index of `c` in `cs`, if any. -/
def lastIndexOfChar (c : Char) (cs : List Char) : Option ℕ :=
  match cs.reverse.findIdx? (fun x => x == c) with
  | some j => some (cs.length - 1 - j)
  | none => none

/-- The memo pattern match `memo.match(/^([\d.]+)x.+\[(.*?)\]$/)`:
group 1 is the maximal leading run of digits and dots (which the regex
engine settles on because the following `x` matches no digit-or-dot),
which must be followed by the literal `x`; the rest must consist of at
least one character, a `[` (the last one, by greediness of `.+`), the
captured group 2, and a closing `]` at the very end.  Returns the two
captured groups. -/
def memoMatch (cs : List Char) : Option (List Char × List Char) :=
  let qty := cs.takeWhile (fun c => c.isDigit || c == '.')
  if qty.isEmpty then none
  else
    match cs.drop qty.length with
    | 'x' :: rest2 =>
        if rest2.getLast? = some ']' then
          let body := rest2.dropLast
          match lastIndexOfChar '[' body with
          | some i => if 1 ≤ i then some (qty, body.drop (i + 1)) else none
          | none => none
        else none
    | _ => none

/-- The filter of the replay loop: the entry is considered only when
its payee starts with `"Stock:"`, its import id starts with the current
versioned marker, and its memo does not start with `"Dividend "`
(optional chaining on absent fields behaves as in JS). -/
def stockEligible (e : LedgerEntry) : Bool :=
  ((e.payee_name.map (fun p => strStarts "Stock:" p)).getD false) &&
  ((e.import_id.map (fun i => strStarts versionedImportMark i)).getD false) &&
  !((e.memo.map (fun m => strStarts "Dividend " m)).getD false)

/-- The stock-leg amount of an entry: the amount of the sub-entry whose
memo contains an `x` when the entry is split (and such a sub-entry
exists), else the entry's own amount. -/
def stockEntryAmount (e : LedgerEntry) : JsNum :=
  match e.subtransactions with
  | [] => e.amount
  | subs =>
      match subs.find? (fun s => (s.memo.map (fun m => m.data.contains 'x')).getD false) with
      | some st => st.amount
      | none => e.amount

/-- JS `Map.prototype.set`: replace the value under an existing key in
place, else append the binding (preserving insertion order). -/
def mapSet (m : List (String × Position)) (k : String) (v : Position) :
    List (String × Position) :=
  if m.any (fun p => p.1 == k) then m.map (fun p => if p.1 == k then (k, v) else p)
  else m ++ [(k, v)]

/-- `ynabPositions.get(isin) || { quantity: 0, totalAmount: 0 }`: the
position accumulated so far for an ISIN, or the empty position. -/
def heldPosition (positions : List (String × Position)) (isin : String) : Position :=
  (positions.lookup isin).getD ⟨.num 0, .num 0, none⟩

/-- One iteration of the replay loop over
`[...existingTransactions, ...transactionsToAdd]`: skip non-stock
entries, parse the memo (a failure is the fatal
`Could not parse memo` error), and fold the entry into the per-ISIN
position: a cleared entry with positive stock-leg amount is a sale
(quantity down, cost basis scaled by `1 - soldQty/heldQty` and
rounded), a cleared entry with non-positive amount is a purchase
(quantity up, absolute amount added), and an uncleared entry with a
ledger id records that id as `unclearedId`. -/
def replayStep (positions : List (String × Position)) (e : LedgerEntry) :
    Except String (List (String × Position)) :=
  if !stockEligible e then .ok positions
  else
    match (e.memo.map (fun m => memoMatch m.data)).getD none with
    | none => .error ("Could not parse memo: " ++ optStr e.memo)
    | some (qs, isinL) =>
        let quantity := jsOfOption (parseT212StockQuantityL qs)
        let isin : String := ⟨isinL⟩
        let position := heldPosition positions isin
        let position' :=
          if e.cleared = .cleared then
            let transactionAmount := stockEntryAmount e
            if JsNum.jgt0 transactionAmount then
              let proportionSold := JsNum.jdiv quantity position.quantity
              { position with
                  quantity := JsNum.jsub position.quantity quantity,
                  totalAmount :=
                    JsNum.jround (JsNum.jmul position.totalAmount
                      (JsNum.jsub (.num 1) proportionSold)) }
            else
              { position with
                  quantity := JsNum.jadd position.quantity quantity,
                  totalAmount := JsNum.jadd position.totalAmount
                    (JsNum.jabs transactionAmount) }
          else if e.cleared = .uncleared ∧ e.id.isSome then
            { position with unclearedId := e.id }
          else position
        .ok (mapSet positions isin position')

/-- Replay a sequence of ledger entries into the per-ISIN position map
(the `ynabPositions` loop of `syncAccount`). -/
def replay (entries : List LedgerEntry) : Except String (List (String × Position)) :=
  entries.foldlM replayStep []

/-! ## The position reconciler: mark-to-market entries -/

/-- One iteration of the mark-to-market loop over the replayed
positions: skip non-positive quantities; find an instrument with the
ISIN whose ticker has a live position (skip the ISIN if none); the
inner lookup failure is the source's
`No t212 position for ...` error; otherwise emit an update (when an
uncleared entry exists) or a create with a value-seeded import id. -/
def reconcileStep (ctx : SyncContext) (today : String)
    (t212Positions : List (String × T212Position))
    (instruments : List Instrument)
    (acc : List LedgerEntry × List LedgerEntry)
    (p : String × Position) :
    Except String (List LedgerEntry × List LedgerEntry) :=
  let isin := p.1
  let ynabPosition := p.2
  if JsNum.jle0 ynabPosition.quantity then .ok acc
  else
    match instruments.find?
        (fun i => i.isin == isin && (t212Positions.lookup i.ticker).isSome) with
    | none => .ok acc
    | some instrument =>
        match t212Positions.lookup instrument.ticker with
        | none => .error ("No t212 position for " ++ instrument.ticker ++ " [" ++ isin ++ "]")
        | some t212Position =>
            let ynabPpl := JsNum.jround (JsNum.jmul
              (JsNum.jdiv ynabPosition.quantity t212Position.quantity) t212Position.ppl)
            let currentValue := JsNum.jadd ynabPosition.totalAmount ynabPpl
            let payee_name := "Stock: " ++ instrument.name
            let payee_id := (ctx.payees.find? (fun pp => pp.name == payee_name)).map Payee.id
            let baseTx : LedgerEntry :=
              { category_id := ctx.stockCategoryId,
                account_id := ctx.account_id,
                date := today, cleared := .uncleared,
                amount := currentValue,
                payee_name := some payee_name, payee_id,
                memo := some (renderJsNum
                    (JsNum.jdiv ynabPosition.quantity (.num 10000000000)) ++
                  "x " ++ instrument.shortName ++ " [" ++ isin ++ "]"),
                approved := some true }
            match ynabPosition.unclearedId with
            | some uid => .ok (acc.1, acc.2 ++ [{ baseTx with id := some uid }])
            | none =>
                .ok (acc.1 ++ [{ baseTx with import_id := some (createImportId
                    (isin ++ ":" ++ today ++ ":" ++ renderJsNum currentValue)) }], acc.2)

/-- The mark-to-market loop over all replayed positions, producing the
additional entries for `transactionsToAdd` and the entries for
`transactionsToUpdate`. -/
def reconcileStage (ctx : SyncContext) (today : String)
    (positions : List (String × Position))
    (instruments : List Instrument)
    (t212Positions : List (String × T212Position)) :
    Except String (List LedgerEntry × List LedgerEntry) :=
  positions.foldlM (reconcileStep ctx today t212Positions instruments) ([], [])

/-! ## The sync orchestrator core -/

/-- The version-conflict predicate of `syncAccount`: an existing entry
whose import id carries the `T212-` marker but not the current
versioned marker. -/
def otherVersionEntry (e : LedgerEntry) : Bool :=
  (e.import_id.map
    (fun i => strStarts importMark i && !strStarts versionedImportMark i)).getD false

/-- The message of the version-conflict error thrown by
`syncAccount`. -/
def versionConflictMessage (iid : Option String) : String :=
  "Found other version prefix (" ++ optStr iid ++
  ") of T212 sync not equal to current version (" ++ versionedImportMark ++
  "...), please delete it first before proceeding to prevent duplicating transactions."

/-- The pure core of `syncAccount` after the fetches: the
version-consistency check, classification of every transaction, the
position replay over existing plus new entries, and the mark-to-market
stage.  Returns the batched `(transactionsToAdd, transactionsToUpdate)`
lists, or the fatal error raised first. -/
def syncCore (ctx : SyncContext) (txs : List Trading212Transaction)
    (instruments : List Instrument)
    (t212Positions : List (String × T212Position))
    (today : String) :
    Except String (List LedgerEntry × List LedgerEntry) :=
  match ctx.existing.find? otherVersionEntry with
  | some otherVersion => .error (versionConflictMessage otherVersion.import_id)
  | none =>
      let transactionsToAdd := txs.flatMap (classify ctx)
      do
        let ynabPositions ← replay (ctx.existing ++ transactionsToAdd)
        let mtm ← reconcileStage ctx today ynabPositions instruments t212Positions
        return (transactionsToAdd ++ mtm.1, mtm.2)

deriving instance DecidableEq for Except

/-! ## Concrete fixtures used by the claim theorems, witnesses and
counterexamples -/

/-- A cleared buy of 10 shares with aggregate cost basis 1000 (amount
−1000), as this system itself would have produced it. -/
def c1BuyEntry : LedgerEntry :=
  { account_id := "acc", date := "2024-01-02", cleared := .cleared,
    amount := .num (-1000),
    payee_name := some "Stock: Apple Inc",
    memo := some "10x AAPL [US0378331005]",
    import_id := some "T212-v14:aaaa" }

/-- A later cleared sale of 4 of those shares (any positive amount). -/
def c1SellEntry : LedgerEntry :=
  { account_id := "acc", date := "2024-03-02", cleared := .cleared,
    amount := .num 500,
    payee_name := some "Stock: Apple Inc",
    memo := some "4x AAPL [US0378331005]",
    import_id := some "T212-v14:bbbb" }

/-- An existing ledger entry carrying the import id derived from the
timestamp/source-id seed of `c2Tx`. -/
def c2ExistingEntry : LedgerEntry :=
  { import_id := some (createImportId "2024-01-01T00:00:00.000Z:tx-1") }

/-- A context whose ledger already contains `c2ExistingEntry`. -/
def c2Ctx : SyncContext :=
  { account_id := "acc", accountCurrency := "GBP", existing := [c2ExistingEntry] }

/-- The source transaction whose derived import identity matches
`c2ExistingEntry`. -/
def c2Tx : Trading212Transaction :=
  { action := .Deposit, timestamp := "2024-01-01T00:00:00.000Z", id := "tx-1",
    total := .num 1000000 }

/-- An existing ledger entry imported under version prefix 13. -/
def c3OldEntry : LedgerEntry :=
  { import_id := some "T212-v13:abcdef" }

/-- A context whose ledger contains the version-13 entry. -/
def c3Ctx : SyncContext :=
  { account_id := "acc", accountCurrency := "GBP", existing := [c3OldEntry] }

/-- A context with an empty ledger. -/
def c6Ctx : SyncContext :=
  { account_id := "acc", accountCurrency := "GBP" }

/-- A market buy with a positive currency-conversion fee. -/
def c6Tx : Trading212Transaction :=
  { action := .MarketBuy, timestamp := "2024-02-03T10:00:00.000Z", id := "tx-6",
    isin := some "US0378331005", ticker := some "AAPL", name := some "Apple Inc",
    shareCount := .num 2, total := .num (-3000), conversionFee := .num 30 }

/-- The same market buy with the conversion-fee column absent. -/
def c6TxNoFee : Trading212Transaction :=
  { action := .MarketBuy, timestamp := "2024-02-03T10:00:00.000Z", id := "tx-6b",
    isin := some "US0378331005", ticker := some "AAPL", name := some "Apple Inc",
    shareCount := .num 2, total := .num (-3000) }

/-- A cleared sale entry for an ISIN with no preceding purchase. -/
def c9Entry : LedgerEntry :=
  { cleared := .cleared, amount := .num 500,
    payee_name := some "Stock: T",
    memo := some "4x T [IE000000]",
    import_id := some "T212-v14:cccc" }

/-- A context for the currency-conversion claims. -/
def c10Ctx : SyncContext :=
  { account_id := "acc", accountCurrency := "GBP" }

/-- A currency conversion whose from-leg matches the account currency
but whose from-amount column is absent. -/
def c10TxFrom : Trading212Transaction :=
  { action := .CurrencyConversion, timestamp := "2024-05-01T09:00:00.000Z", id := "tx-10",
    total := .num 0,
    conversionFromCurrency := some "GBP", conversionToCurrency := some "EUR" }

/-- A currency conversion whose to-leg matches the account currency
but whose to-amount column is absent. -/
def c10TxTo : Trading212Transaction :=
  { action := .CurrencyConversion, timestamp := "2024-05-02T09:00:00.000Z", id := "tx-11",
    total := .num 0,
    conversionFromCurrency := some "USD", conversionToCurrency := some "GBP" }

/-! ## Digit-string lemmas -/

theorem digitChar_toNat {d : ℕ} (h : d < 10) : (Nat.digitChar d).toNat = 48 + d := by
  revert h
  revert d
  decide

theorem digitChar_isDigit {d : ℕ} (h : d < 10) : (Nat.digitChar d).isDigit = true := by
  revert h
  revert d
  decide

theorem foldl_digits_acc (l : List Char) (acc : ℕ) :
    l.foldl (fun a c => 10 * a + (c.toNat - 48)) acc =
      acc * 10 ^ l.length + l.foldl (fun a c => 10 * a + (c.toNat - 48)) 0 := by
  induction l generalizing acc with
  | nil => simp
  | cons c l ih =>
      simp only [List.foldl_cons, List.length_cons]
      rw [ih (10 * acc + (c.toNat - 48)), ih (10 * 0 + (c.toNat - 48))]
      ring

theorem digitsToNat_append (a b : List Char) :
    digitsToNat (a ++ b) = digitsToNat a * 10 ^ b.length + digitsToNat b := by
  simp only [digitsToNat, List.foldl_append]
  exact foldl_digits_acc b (digitsToNat a)

theorem digitsToNat_singleton (c : Char) : digitsToNat [c] = c.toNat - 48 := by
  simp [digitsToNat]

theorem digitsToNat_replicate_zero (k : ℕ) :
    digitsToNat (List.replicate k '0') = 0 := by
  induction k with
  | zero => rfl
  | succ k ih =>
      have : List.replicate (k + 1) '0' = List.replicate k '0' ++ ['0'] := by
        rw [List.replicate_succ' k '0']
      rw [this, digitsToNat_append, ih]
      rfl

theorem natDigitsF_congr (f₁ : ℕ) : ∀ f₂ n, n < f₁ → n < f₂ →
    natDigitsF f₁ n = natDigitsF f₂ n := by
  induction f₁ with
  | zero => omega
  | succ f₁ ih =>
      intro f₂ n h1 h2
      match f₂, h2 with
      | f₂ + 1, _ =>
        simp only [natDigitsF]
        by_cases h : n < 10
        · simp [h]
        · simp only [h, if_false]
          have hlt : n / 10 < n := Nat.div_lt_self (by omega) (by omega)
          rw [ih f₂ (n / 10) (by omega) (by omega)]

theorem natDigits_eq (n : ℕ) :
    natDigits n = if n < 10 then [Nat.digitChar n]
      else natDigits (n / 10) ++ [Nat.digitChar (n % 10)] := by
  show natDigitsF (n + 1) n = _
  rw [natDigitsF]
  by_cases h : n < 10
  · simp [h]
  · simp only [h, if_false]
    have hlt : n / 10 < n := Nat.div_lt_self (by omega) (by omega)
    rw [natDigitsF_congr n (n / 10 + 1) (n / 10) (by omega) (by omega)]
    rfl

theorem natDigits_ne_nil (n : ℕ) : natDigits n ≠ [] := by
  rw [natDigits_eq]
  by_cases h : n < 10 <;> simp [h]

theorem natDigits_isDigit (n : ℕ) : ∀ c ∈ natDigits n, c.isDigit = true := by
  induction n using Nat.strong_induction_on with
  | _ n ih =>
      rw [natDigits_eq]
      by_cases h : n < 10
      · simp only [h, if_true, List.mem_singleton]
        rintro c rfl
        exact digitChar_isDigit h
      · simp only [h, if_false, List.mem_append, List.mem_singleton]
        rintro c (hc | rfl)
        · exact ih (n / 10) (Nat.div_lt_self (by omega) (by omega)) c hc
        · exact digitChar_isDigit (Nat.mod_lt n (by omega))

theorem digitsToNat_natDigits (n : ℕ) : digitsToNat (natDigits n) = n := by
  induction n using Nat.strong_induction_on with
  | _ n ih =>
      rw [natDigits_eq]
      by_cases h : n < 10
      · simp only [h, if_true, digitsToNat_singleton, digitChar_toNat h]
        omega
      · simp only [h, if_false, digitsToNat_append,
          ih (n / 10) (Nat.div_lt_self (by omega) (by omega)),
          digitsToNat_singleton, digitChar_toNat (Nat.mod_lt n (by omega))]
        simp only [List.length_singleton, pow_one]
        omega

theorem takeWhile_all_append (p : Char → Bool) (a b : List Char)
    (h : ∀ c ∈ a, p c = true) :
    (a ++ b).takeWhile p = a ++ b.takeWhile p := by
  induction a with
  | nil => simp
  | cons c a ih =>
      simp only [List.cons_append, List.takeWhile_cons, h c (by simp), if_true]
      simp only [ih (fun x hx => h x (by simp [hx]))]

theorem dropWhile_all_append (p : Char → Bool) (a b : List Char)
    (h : ∀ c ∈ a, p c = true) :
    (a ++ b).dropWhile p = b.dropWhile p := by
  induction a with
  | nil => simp
  | cons c a ih =>
      simp only [List.cons_append, List.dropWhile_cons, h c (by simp)]
      exact ih (fun x hx => h x (by simp [hx]))

theorem takeWhile_all (p : Char → Bool) (a : List Char)
    (h : ∀ c ∈ a, p c = true) : a.takeWhile p = a := by
  have := takeWhile_all_append p a [] h
  simpa using this

theorem isDigit_ne (c : Char) (h : c.isDigit = true) :
    c ≠ '.' ∧ c ≠ '-' ∧ c ≠ '+' := by
  refine ⟨?_, ?_, ?_⟩ <;> rintro rfl <;> exact absurd h (by decide)

theorem parseNatJS_digits (ds : List Char) (h1 : ds ≠ [])
    (h2 : ∀ c ∈ ds, c.isDigit = true) :
    parseNatJS ds = some (digitsToNat ds) := by
  have hne : ds.isEmpty = false := by
    cases ds with
    | nil => exact absurd rfl h1
    | cons c t => rfl
  unfold parseNatJS
  rw [takeWhile_all _ _ h2]
  simp [hne]

theorem parseIntJS_digits (ds : List Char) (h1 : ds ≠ [])
    (h2 : ∀ c ∈ ds, c.isDigit = true) :
    parseIntJS ds = some ((digitsToNat ds : ℤ)) := by
  match ds, h1 with
  | c :: t, _ =>
    have hc : c.isDigit = true := h2 c (by simp)
    obtain ⟨-, hm, hp⟩ := isDigit_ne c hc
    simp only [parseIntJS, if_neg hm, if_neg hp,
      parseNatJS_digits (c :: t) (by simp) h2]
    simp

theorem parseIntJS_neg (ds : List Char) (h1 : ds ≠ [])
    (h2 : ∀ c ∈ ds, c.isDigit = true) :
    parseIntJS ('-' :: ds) = some (-(digitsToNat ds : ℤ)) := by
  simp only [parseIntJS, parseNatJS_digits ds h1 h2]
  simp

theorem splitDot1_spec (a b : List Char) (ha : ∀ c ∈ a, c ≠ '.')
    (hb : ∀ c ∈ b, c ≠ '.') :
    splitDot1 (a ++ '.' :: b) = (a, b) := by
  have ha' : ∀ c ∈ a, (fun c => decide (c ≠ '.')) c = true := by
    intro c hc
    simpa using ha c hc
  unfold splitDot1
  rw [takeWhile_all_append _ a _ ha', dropWhile_all_append _ a _ ha']
  have hdot : (fun c => decide (c ≠ '.')) '.' = false := by decide
  simp only [List.takeWhile_cons, List.dropWhile_cons, hdot, Bool.false_eq_true,
    if_false, List.append_nil, List.drop_succ_cons, List.drop_zero]
  rw [takeWhile_all _ b (by intro c hc; simpa using hb c hc)]

theorem splitDot1_nodot (a : List Char) (ha : ∀ c ∈ a, c ≠ '.') :
    splitDot1 a = (a, []) := by
  have ha' : ∀ c ∈ a, (fun c => decide (c ≠ '.')) c = true := by
    intro c hc
    simpa using ha c hc
  unfold splitDot1
  rw [takeWhile_all _ a ha']
  have : a.dropWhile (fun c => decide (c ≠ '.')) = [] := by
    have := dropWhile_all_append (fun c => decide (c ≠ '.')) a [] ha'
    simpa using this
  rw [this]
  rfl

theorem parseAmountL_decimal (ds1 ds2 : List Char) (ip : ℕ) (of : ℤ)
    (h1 : ds1 ≠ []) (hd1 : ∀ c ∈ ds1, c.isDigit = true)
    (hd2 : ∀ c ∈ ds2, c.isDigit = true) (hlen : ds2.length ≤ ip) :
    parseAmountL (ds1 ++ '.' :: ds2) ip of =
      some (((digitsToNat ds1 * 10 ^ ip +
        digitsToNat ds2 * 10 ^ (ip - ds2.length) : ℕ) : ℤ) * of) := by
  have hzd : ∀ c ∈ List.replicate (ip - ds2.length) '0', c.isDigit = true := by
    intro c hc
    rw [List.eq_of_mem_replicate hc]
    decide
  have hall : ∀ c ∈ ds1 ++ padEndZeros ds2 ip, c.isDigit = true := by
    intro c hc
    rcases List.mem_append.mp hc with h | h
    · exact hd1 c h
    · rcases List.mem_append.mp h with h | h
      · exact hd2 c h
      · exact hzd c h
  unfold parseAmountL
  rw [splitDot1_spec ds1 ds2 (fun c hc => (isDigit_ne c (hd1 c hc)).1)
    (fun c hc => (isDigit_ne c (hd2 c hc)).1)]
  simp only
  rw [parseIntJS_digits _ (by simp [h1]) hall]
  simp only [Option.map_some', Option.some.injEq]
  unfold padEndZeros
  rw [← List.append_assoc, digitsToNat_append, digitsToNat_append,
    digitsToNat_replicate_zero, List.length_replicate]
  congr 1
  have hp : (10 : ℕ) ^ ds2.length * 10 ^ (ip - ds2.length) = 10 ^ ip := by
    rw [← pow_add]
    congr 1
    omega
  have : (digitsToNat ds1 * 10 ^ ds2.length + digitsToNat ds2) * 10 ^ (ip - ds2.length) =
      digitsToNat ds1 * (10 ^ ds2.length * 10 ^ (ip - ds2.length)) +
        digitsToNat ds2 * 10 ^ (ip - ds2.length) := by ring
  rw [Nat.add_zero, this, hp]

theorem twoDigits_isDigit (d : ℕ) : ∀ c ∈ twoDigits d, c.isDigit = true := by
  intro c hc
  simp only [twoDigits, List.mem_cons, List.not_mem_nil, or_false] at hc
  rcases hc with rfl | rfl
  · exact digitChar_isDigit (Nat.mod_lt _ (by omega))
  · exact digitChar_isDigit (Nat.mod_lt _ (by omega))

theorem digitsToNat_twoDigits (d : ℕ) (h : d < 100) :
    digitsToNat (twoDigits d) = d := by
  unfold twoDigits
  have h1 : d / 10 % 10 < 10 := Nat.mod_lt _ (by omega)
  have h2 : d % 10 < 10 := Nat.mod_lt _ (by omega)
  have e1 := digitChar_toNat h1
  have e2 := digitChar_toNat h2
  simp only [digitsToNat, List.foldl_cons, List.foldl_nil, e1, e2]
  omega

theorem parseAmountL_formatCentsNat (m : ℕ) :
    parseAmountL (formatCentsNat m) 2 10 = some ((m : ℤ) * 10) := by
  unfold formatCentsNat
  rw [parseAmountL_decimal (natDigits (m / 100)) (twoDigits (m % 100)) 2 10
    (natDigits_ne_nil _) (natDigits_isDigit _) (twoDigits_isDigit _) (by rfl)]
  have h2 : (twoDigits (m % 100)).length = 2 := rfl
  rw [h2, digitsToNat_natDigits, digitsToNat_twoDigits _ (Nat.mod_lt _ (by omega))]
  congr 1
  have : m / 100 * 10 ^ 2 + m % 100 * 10 ^ (2 - 2) = m := by omega
  rw [this]

theorem formatCentsNat_eq (m : ℕ) :
    formatCentsNat m = natDigits (m / 100) ++ '.' :: twoDigits (m % 100) := rfl

theorem parseMoneyL_formatCents (n : ℤ) :
    parseMoneyL (formatCentsL n) = some (10 * n) := by
  unfold parseMoneyL formatCentsL
  by_cases hn : n < 0
  · simp only [hn, if_true]
    rw [formatCentsNat_eq]
    have hA := natDigits_isDigit (n.natAbs / 100)
    have hB := twoDigits_isDigit (n.natAbs % 100)
    have hcons : '-' :: (natDigits (n.natAbs / 100) ++ '.' :: twoDigits (n.natAbs % 100)) =
        ('-' :: natDigits (n.natAbs / 100)) ++ '.' :: twoDigits (n.natAbs % 100) := rfl
    rw [hcons]
    unfold parseAmountL
    rw [splitDot1_spec _ _ (by
        intro c hc
        rcases List.mem_cons.mp hc with rfl | hc
        · decide
        · exact (isDigit_ne c (hA c hc)).1)
      (fun c hc => (isDigit_ne c (hB c hc)).1)]
    simp only
    have hpad : padEndZeros (twoDigits (n.natAbs % 100)) 2 = twoDigits (n.natAbs % 100) := by
      unfold padEndZeros
      rw [(by rfl : (twoDigits (n.natAbs % 100)).length = 2)]
      simp
    rw [hpad]
    have hassoc : ('-' :: natDigits (n.natAbs / 100)) ++ twoDigits (n.natAbs % 100) =
        '-' :: (natDigits (n.natAbs / 100) ++ twoDigits (n.natAbs % 100)) := rfl
    rw [hassoc, parseIntJS_neg _ (by simp [natDigits_ne_nil]) (by
      intro c hc
      rcases List.mem_append.mp hc with hc | hc
      · exact hA c hc
      · exact hB c hc)]
    rw [digitsToNat_append, digitsToNat_natDigits,
      digitsToNat_twoDigits _ (Nat.mod_lt _ (by omega)),
      (by rfl : (twoDigits (n.natAbs % 100)).length = 2)]
    simp only [Option.map_some', Option.some.injEq]
    have habs : (n.natAbs : ℤ) = -n := by omega
    have : (n.natAbs / 100 * 10 ^ 2 + n.natAbs % 100 : ℕ) = n.natAbs := by omega
    rw [this]
    rw [habs]
    ring
  · simp only [hn, if_false]
    rw [parseAmountL_formatCentsNat]
    have habs : (n.natAbs : ℤ) = n := by omega
    rw [habs]
    ring_nf

theorem reformat2dp_tenfold (n : ℤ) : reformat2dp (10 * n) = formatCentsL n := by
  unfold reformat2dp
  have : 10 * n / 10 = n := by omega
  rw [this]

/-! ## JsNum lemmas -/

theorem jmul_ne_undef (x y : JsNum) : JsNum.jmul x y ≠ .undef := by
  cases x <;> cases y <;>
    simp only [JsNum.jmul, JsNum.toNumber] <;>
    (try split_ifs) <;> simp

theorem jadd_num_cancel (x : JsNum) (hx : x ≠ .undef) (f : ℚ) :
    JsNum.jadd (JsNum.jadd x (.num f)) (JsNum.jneg (.num f)) = x := by
  cases x with
  | num a =>
      simp only [JsNum.jadd, JsNum.jneg, JsNum.toNumber, JsNum.num.injEq]
      ring
  | posInf => rfl
  | negInf => rfl
  | nan => rfl
  | undef => exact absurd rfl hx

/-! ## Classifier pre-filter lemmas -/

theorem classify_any_false (ctx : SyncContext) (tx : Trading212Transaction)
    (hnew : ∀ t ∈ ctx.existing, t.import_id ≠ some (createImportId (txSeed tx))) :
    (ctx.existing.any
      (fun t => t.import_id == some (createImportId (txSeed tx)))) = false := by
  rw [List.any_eq_false]
  intro t ht
  simpa using hnew t ht

theorem classify_currency_false (ctx : SyncContext) (tx : Trading212Transaction)
    (hcur : tx.totalCurrency = none ∨ tx.totalCurrency = some ctx.accountCurrency) :
    (tx.totalCurrency.isSome && tx.totalCurrency != some ctx.accountCurrency) = false := by
  rcases hcur with h | h <;> simp [h]

/-! ## Replay-step lemmas -/

theorem replayStep_sale (positions : List (String × Position)) (e : LedgerEntry)
    (qs isinL : List Char) (q : ℤ)
    (helig : stockEligible e = true)
    (hmemo : (e.memo.map (fun m => memoMatch m.data)).getD none = some (qs, isinL))
    (hq : parseT212StockQuantityL qs = some q)
    (hcleared : e.cleared = .cleared)
    (hamt : JsNum.jgt0 (stockEntryAmount e) = true) :
    replayStep positions e = .ok (mapSet positions ⟨isinL⟩
      { quantity := JsNum.jsub (heldPosition positions ⟨isinL⟩).quantity (.num (q : ℚ)),
        totalAmount := JsNum.jround (JsNum.jmul
          (heldPosition positions ⟨isinL⟩).totalAmount
          (JsNum.jsub (.num 1) (JsNum.jdiv (.num (q : ℚ))
            (heldPosition positions ⟨isinL⟩).quantity))),
        unclearedId := (heldPosition positions ⟨isinL⟩).unclearedId }) := by
  unfold replayStep
  rw [helig, hmemo]
  simp only [Bool.not_true, Bool.false_eq_true, if_false, hq, jsOfOption, hcleared,
    if_pos rfl, hamt, if_true]

theorem replayStep_purchase (positions : List (String × Position)) (e : LedgerEntry)
    (qs isinL : List Char) (q : ℤ)
    (helig : stockEligible e = true)
    (hmemo : (e.memo.map (fun m => memoMatch m.data)).getD none = some (qs, isinL))
    (hq : parseT212StockQuantityL qs = some q)
    (hcleared : e.cleared = .cleared)
    (hamt : JsNum.jgt0 (stockEntryAmount e) = false) :
    replayStep positions e = .ok (mapSet positions ⟨isinL⟩
      { quantity := JsNum.jadd (heldPosition positions ⟨isinL⟩).quantity (.num (q : ℚ)),
        totalAmount := JsNum.jadd (heldPosition positions ⟨isinL⟩).totalAmount
          (JsNum.jabs (stockEntryAmount e)),
        unclearedId := (heldPosition positions ⟨isinL⟩).unclearedId }) := by
  unfold replayStep
  rw [helig, hmemo]
  simp only [Bool.not_true, Bool.false_eq_true, if_false, hq, jsOfOption, hcleared,
    if_pos rfl, hamt, if_true]

/-! ## Reconcile-stage lemmas -/

theorem reconcileStep_ok (ctx : SyncContext) (today : String)
    (t212Positions : List (String × T212Position)) (instruments : List Instrument)
    (acc : List LedgerEntry × List LedgerEntry) (p : String × Position) :
    ∃ acc2, reconcileStep ctx today t212Positions instruments acc p = .ok acc2 := by
  unfold reconcileStep
  by_cases hle : JsNum.jle0 p.2.quantity = true
  · rw [if_pos hle]
    exact ⟨acc, rfl⟩
  · rw [if_neg hle]
    cases hf : instruments.find?
        (fun i => i.isin == p.1 && (t212Positions.lookup i.ticker).isSome) with
    | none => exact ⟨acc, rfl⟩
    | some instrument =>
        have hp := List.find?_some hf
        simp only [Bool.and_eq_true] at hp
        obtain ⟨v, hv⟩ := Option.isSome_iff_exists.mp hp.2
        dsimp only
        rw [hv]
        cases huid : p.2.unclearedId <;> exact ⟨_, rfl⟩

theorem reconcileStage_ok (ctx : SyncContext) (today : String)
    (positions : List (String × Position)) (instruments : List Instrument)
    (t212Positions : List (String × T212Position)) :
    ∃ r, reconcileStage ctx today positions instruments t212Positions = .ok r := by
  unfold reconcileStage
  suffices h : ∀ (ps : List (String × Position)) (acc : List LedgerEntry × List LedgerEntry),
      ∃ r, ps.foldlM (reconcileStep ctx today t212Positions instruments) acc = .ok r by
    exact h positions ([], [])
  intro ps
  induction ps with
  | nil =>
      intro acc
      exact ⟨acc, rfl⟩
  | cons p ps ih =>
      intro acc
      obtain ⟨acc2, hstep⟩ := reconcileStep_ok ctx today t212Positions instruments acc p
      obtain ⟨r, hrest⟩ := ih acc2
      refine ⟨r, ?_⟩
      rw [List.foldlM_cons, hstep]
      simpa using hrest

/-! ## Claim theorems -/

section ClaimTheorems

attribute [local semireducible] Rat.add Rat.mul Rat.inv Rat.sub

/-- C4: `createImportId` prefixes the hex SHA-256 digest of the seed
with the versioned marker and truncates to 36 characters; the result
has length at most 36, begins with the current version marker, and the
function is deterministic in its seed. -/
theorem c4_import_identity (s : String) :
    createImportId s =
      ⟨(versionedImportMark.data ++ hexDigest (sha256 (utf8Bytes s.data))).take 36⟩ ∧
    (createImportId s).length ≤ 36 ∧
    versionedImportMark.data <+: (createImportId s).data ∧
    (∀ t : String, s = t → createImportId s = createImportId t) := by
  refine ⟨rfl, ?_, ?_, fun t h => by rw [h]⟩
  · show ((versionedImportMark.data ++ hexDigest (sha256 (utf8Bytes s.data))).take 36).length ≤ 36
    rw [List.length_take]
    omega
  · show versionedImportMark.data <+:
      (versionedImportMark.data ++ hexDigest (sha256 (utf8Bytes s.data))).take 36
    rw [List.take_append_eq_append_take,
      List.take_of_length_le (by decide : versionedImportMark.data.length ≤ 36)]
    exact List.prefix_append _ _

/-- C4 witness: the properties evaluated at a concrete seed, with the
determinism hypothesis discharged. -/
theorem c4_import_identity_witness :
    (createImportId "2024-01-01T00:00:00.000Z:tx-1").length ≤ 36 ∧
    versionedImportMark.data <+: (createImportId "2024-01-01T00:00:00.000Z:tx-1").data ∧
    createImportId "2024-01-01T00:00:00.000Z:tx-1" =
      createImportId "2024-01-01T00:00:00.000Z:tx-1" :=
  ⟨(c4_import_identity "2024-01-01T00:00:00.000Z:tx-1").2.1,
   (c4_import_identity "2024-01-01T00:00:00.000Z:tx-1").2.2.1,
   (c4_import_identity "2024-01-01T00:00:00.000Z:tx-1").2.2.2 _ rfl⟩

/-- C2: a source transaction whose derived import identity already
occurs among the existing ledger entries is skipped before any
per-action dispatch — classifying it yields no entries. -/
theorem c2_idempotent_skip (ctx : SyncContext) (tx : Trading212Transaction)
    (h : ∃ t ∈ ctx.existing, t.import_id = some (createImportId (txSeed tx))) :
    classify ctx tx = [] := by
  obtain ⟨t, ht, hid⟩ := h
  have hany : (ctx.existing.any
      (fun t => t.import_id == some (createImportId (txSeed tx)))) = true := by
    rw [List.any_eq_true]
    exact ⟨t, ht, by simp [hid]⟩
  unfold classify
  simp only [hany, if_true]

/-- C2 witness: re-classifying the already-imported deposit `c2Tx`
against `c2Ctx` produces zero entries. -/
theorem c2_idempotent_skip_witness : classify c2Ctx c2Tx = [] :=
  c2_idempotent_skip c2Ctx c2Tx ⟨c2ExistingEntry, by simp [c2Ctx], rfl⟩

/-- C3: when some existing entry carries the `T212-` marker but not the
current versioned marker, the orchestrator core stops with the
version-conflict error — no transaction is classified and no
create/update batch is produced. -/
theorem c3_version_conflict (ctx : SyncContext) (txs : List Trading212Transaction)
    (instruments : List Instrument) (t212Positions : List (String × T212Position))
    (today : String) (e : LedgerEntry)
    (h : ctx.existing.find? otherVersionEntry = some e) :
    syncCore ctx txs instruments t212Positions today =
      .error (versionConflictMessage e.import_id) := by
  unfold syncCore
  rw [h]

/-- C3 witness: a ledger holding a v13-prefixed entry aborts the run
with the version-conflict error while the current version is 14. -/
theorem c3_version_conflict_witness :
    syncCore c3Ctx [] [] [] "2026-10-12" =
      .error (versionConflictMessage (some "T212-v13:abcdef")) :=
  c3_version_conflict c3Ctx [] [] [] "2026-10-12" c3OldEntry (by decide)

/-- C5 counterexample: `"1.5"` is a money string with at most 2
fractional digits, it parses to 1500, yet dividing by 1000 and
reformatting to 2 decimal places yields `"1.50"`, not `"1.5"` — the
claimed round-trip fails for strings not already in 2-fractional-digit
form. -/
theorem c5_roundtrip_counterexample :
    fracDigitCount "1.5".data ≤ 2 ∧
    parseMoneyL "1.5".data = some 1500 ∧
    reformat2dp 1500 = "1.50".data ∧
    reformat2dp 1500 ≠ "1.5".data := by
  refine ⟨by decide, by decide, by decide, by decide⟩

/-- C5 (amended): the round-trip holds exactly for canonically
formatted 2-decimal money strings: for every integer number of cents
`n`, the canonical rendering of `n` parses under
`parseAmount(s, 2, 10)` to `10 * n`, and dividing that value by 1000
and reformatting to 2 decimal places returns the original string. -/
theorem c5_roundtrip_canonical (n : ℤ) :
    parseMoneyL (formatCentsL n) = some (10 * n) ∧
    (parseMoneyL (formatCentsL n)).map reformat2dp = some (formatCentsL n) := by
  refine ⟨parseMoneyL_formatCents n, ?_⟩
  rw [parseMoneyL_formatCents n]
  simp only [Option.map_some', Option.some.injEq]
  exact reformat2dp_tenfold n

/-- C1: replaying one cleared buy of 10 shares at cost basis 1000
followed by one cleared sale of 4 shares yields remaining quantity 6
shares (60000000000 in 1e-10-share units) and cost basis
`round(1000 * (1 - 4/10)) = 600`; and in general a replay step on a
positive-amount (sale) entry subtracts the parsed share count from the
quantity and multiplies `totalAmount` by `1 - soldQty/heldQty` rounded
to the nearest integer, while a non-positive-amount (purchase) entry
adds the parsed share count and the absolute amount. -/
theorem c1_position_replay :
    replay [c1BuyEntry, c1SellEntry] =
      .ok [("US0378331005", ⟨.num 60000000000, .num 600, none⟩)] ∧
    (∀ (positions : List (String × Position)) (e : LedgerEntry)
        (qs isinL : List Char) (q : ℤ),
      stockEligible e = true →
      (e.memo.map (fun m => memoMatch m.data)).getD none = some (qs, isinL) →
      parseT212StockQuantityL qs = some q →
      e.cleared = .cleared →
      (JsNum.jgt0 (stockEntryAmount e) = true →
        replayStep positions e = .ok (mapSet positions ⟨isinL⟩
          { quantity := JsNum.jsub (heldPosition positions ⟨isinL⟩).quantity
              (.num (q : ℚ)),
            totalAmount := JsNum.jround (JsNum.jmul
              (heldPosition positions ⟨isinL⟩).totalAmount
              (JsNum.jsub (.num 1) (JsNum.jdiv (.num (q : ℚ))
                (heldPosition positions ⟨isinL⟩).quantity))),
            unclearedId := (heldPosition positions ⟨isinL⟩).unclearedId })) ∧
      (JsNum.jgt0 (stockEntryAmount e) = false →
        replayStep positions e = .ok (mapSet positions ⟨isinL⟩
          { quantity := JsNum.jadd (heldPosition positions ⟨isinL⟩).quantity
              (.num (q : ℚ)),
            totalAmount := JsNum.jadd (heldPosition positions ⟨isinL⟩).totalAmount
              (JsNum.jabs (stockEntryAmount e)),
            unclearedId := (heldPosition positions ⟨isinL⟩).unclearedId }))) := by
  refine ⟨by decide, fun positions e qs isinL q helig hmemo hq hcl => ⟨?_, ?_⟩⟩
  · exact fun hamt => replayStep_sale positions e qs isinL q helig hmemo hq hcl hamt
  · exact fun hamt => replayStep_purchase positions e qs isinL q helig hmemo hq hcl hamt

/-- C1 witness: the general replay step applied to the concrete sale
entry over a held position of 10 shares at cost basis 1000. -/
theorem c1_position_replay_witness :
    replayStep [("US0378331005", ⟨.num 100000000000, .num 1000, none⟩)] c1SellEntry =
      .ok [("US0378331005", ⟨.num 60000000000, .num 600, none⟩)] := by
  have h := (c1_position_replay.2
      [("US0378331005", ⟨.num 100000000000, .num 1000, none⟩)] c1SellEntry
      "4".data "US0378331005".data 40000000000
      (by decide) (by decide) (by decide) rfl).1 (by decide)
  rw [h]
  decide

/-- C9: the sale branch divides by the held quantity with no zero
guard: a cleared positive-amount stock entry for an ISIN with no prior
entry (held quantity 0) makes the proportion sold a division by zero,
leaves the position's `totalAmount` as `NaN` (not a well-defined
integer), and drives the quantity negative. -/
theorem c9_sale_before_purchase (positions : List (String × Position)) (e : LedgerEntry)
    (qs isinL : List Char) (q : ℤ)
    (helig : stockEligible e = true)
    (hmemo : (e.memo.map (fun m => memoMatch m.data)).getD none = some (qs, isinL))
    (hq : parseT212StockQuantityL qs = some q)
    (hqpos : 0 < q)
    (hcl : e.cleared = .cleared)
    (hamt : JsNum.jgt0 (stockEntryAmount e) = true)
    (hfresh : positions.lookup (⟨isinL⟩ : String) = none) :
    replayStep positions e =
      .ok (mapSet positions ⟨isinL⟩ ⟨.num (-(q : ℚ)), .nan, none⟩) ∧
    (-(q : ℚ)) < 0 := by
  have hheld : heldPosition positions ⟨isinL⟩ = ⟨.num 0, .num 0, none⟩ := by
    unfold heldPosition
    rw [hfresh]
    rfl
  have h := replayStep_sale positions e qs isinL q helig hmemo hq hcl hamt
  rw [hheld] at h
  have hqQ : (0 : ℚ) < (q : ℚ) := by exact_mod_cast hqpos
  have e1 : JsNum.jsub (.num 0) (.num (q : ℚ)) = .num (-(q : ℚ)) := by
    simp [JsNum.jsub, JsNum.jadd, JsNum.jneg, JsNum.toNumber]
  have hdiv : JsNum.jdiv (.num (q : ℚ)) (.num 0) = .posInf := by
    simp [JsNum.jdiv, JsNum.toNumber, hqQ]
  have e2 : JsNum.jround (JsNum.jmul (JsNum.num 0)
      (JsNum.jsub (.num 1) (JsNum.jdiv (.num (q : ℚ)) (.num 0)))) = .nan := by
    rw [hdiv]
    simp [JsNum.jsub, JsNum.jadd, JsNum.jneg, JsNum.jmul, JsNum.jround, JsNum.toNumber]
  constructor
  · rw [h]
    dsimp only
    rw [e1, e2]
  · exact neg_lt_zero.mpr hqQ

/-- C9 witness: a first-ever sale of 4 shares of `IE000000` leaves a
position with negative quantity and `NaN` cost basis. -/
theorem c9_sale_before_purchase_witness :
    replayStep [] c9Entry = .ok [("IE000000", ⟨.num (-40000000000), .nan, none⟩)] ∧
    ((-40000000000 : ℚ)) < 0 := by
  have h := c9_sale_before_purchase [] c9Entry "4".data "IE000000".data 40000000000
    (by decide) (by decide) (by decide) (by decide) rfl (by decide) rfl
  constructor
  · rw [h.1]
    decide
  · exact_mod_cast h.2

/-- C8 counterexample: a replayed position with positive quantity whose
ISIN has an instrument in the catalog (`"US1"`, ticker `"AAPL"`) but no
entry in the live open-positions snapshot is skipped without any error
— the stage returns `ok` with no entries, where the claim predicts an
internal-error failure. -/
theorem c8_skip_counterexample :
    JsNum.jle0 (JsNum.num 50000000000) = false ∧
    (([⟨"US1", "AAPL", "Apple Inc", "AAPL"⟩] : List Instrument).any
      (fun i => i.isin == "US1")) = true ∧
    (([] : List (String × T212Position)).lookup "AAPL") = none ∧
    reconcileStage ⟨"acc", "GBP", [], [], none, none, none⟩ "2026-10-12"
      [("US1", ⟨.num 50000000000, .num 1000, none⟩)]
      [⟨"US1", "AAPL", "Apple Inc", "AAPL"⟩] [] = .ok ([], []) := by
  exact ⟨by decide, by decide, rfl, by decide⟩

/-- C8 (amended): an ISIN with positive replayed quantity whose
instrument lookup finds no catalog entry with a live position — whether
the ISIN is absent from the catalog or merely has no live position for
its ticker — is skipped without error, and the mark-to-market stage as
a whole never fails: the instrument lookup already requires a live
position, so the internal-error branch is unreachable. -/
theorem c8_no_live_position_skips :
    (∀ (ctx : SyncContext) (today : String)
        (t212Positions : List (String × T212Position))
        (instruments : List Instrument)
        (acc : List LedgerEntry × List LedgerEntry) (isin : String) (pos : Position),
      instruments.find?
        (fun i => i.isin == isin && (t212Positions.lookup i.ticker).isSome) = none →
      reconcileStep ctx today t212Positions instruments acc (isin, pos) = .ok acc) ∧
    (∀ (ctx : SyncContext) (today : String)
        (positions : List (String × Position)) (instruments : List Instrument)
        (t212Positions : List (String × T212Position)),
      ∃ r, reconcileStage ctx today positions instruments t212Positions = .ok r) := by
  constructor
  · intro ctx today t212Positions instruments acc isin pos hfind
    unfold reconcileStep
    by_cases hle : JsNum.jle0 pos.quantity = true
    · rw [if_pos hle]
    · rw [if_neg hle]
      dsimp only
      rw [hfind]
  · exact fun ctx today positions instruments t212Positions =>
      reconcileStage_ok ctx today positions instruments t212Positions

/-- C8 witness: the skip lemma applied to the concrete
instrument-without-live-position scenario. -/
theorem c8_no_live_position_skips_witness :
    reconcileStep ⟨"acc", "GBP", [], [], none, none, none⟩ "2026-10-12" []
      [⟨"US1", "AAPL", "Apple Inc", "AAPL"⟩] ([], [])
      ("US1", ⟨.num 50000000000, .num 1000, none⟩) = .ok ([], []) :=
  c8_no_live_position_skips.1 ⟨"acc", "GBP", [], [], none, none, none⟩ "2026-10-12" []
    [⟨"US1", "AAPL", "Apple Inc", "AAPL"⟩] ([], [])
    "US1" ⟨.num 50000000000, .num 1000, none⟩ (by decide)

/-- C6: a market buy or sell that passes the pre-filters and carries a
present positive conversion fee classifies to exactly one entry with
exactly two sub-entries — the stock leg carrying the parent amount plus
the fee and a fee leg carrying the negated fee — whose amounts sum to
the parent amount; with the fee absent or non-positive, a single
unsplit entry is produced. -/
theorem c6_trade_split (ctx : SyncContext) (tx : Trading212Transaction)
    (hact : tx.action = .MarketBuy ∨ tx.action = .MarketSell)
    (hnew : ∀ t ∈ ctx.existing, t.import_id ≠ some (createImportId (txSeed tx)))
    (hcur : tx.totalCurrency = none ∨ tx.totalCurrency = some ctx.accountCurrency) :
    (∀ f : ℚ, tx.conversionFee = .num f → 0 < f →
      ∃ e s1 s2, classify ctx tx = [e] ∧
        e.subtransactions = [s1, s2] ∧
        s1.amount = JsNum.jadd e.amount (.num f) ∧
        s2.amount = JsNum.jneg (.num f) ∧
        JsNum.jadd s1.amount s2.amount = e.amount) ∧
    (JsNum.jgt0 (JsNum.coalesce0 tx.conversionFee) = false →
      ∃ e, classify ctx tx = [e] ∧ e.subtransactions = []) := by
  have hany := classify_any_false ctx tx hnew
  have hcurF := classify_currency_false ctx tx hcur
  constructor
  · intro f hf hfpos
    have hgt : JsNum.jgt0 (JsNum.coalesce0 (JsNum.num f)) = true := by
      simp [JsNum.coalesce0, JsNum.jgt0, hfpos]
    rcases hact with hact | hact <;>
      (simp only [classify, hany, hcurF, hact, Bool.false_eq_true, if_false,
        hf, hgt, if_true]
       exact ⟨_, _, _, rfl, rfl, rfl, rfl, jadd_num_cancel _ (jmul_ne_undef _ _) f⟩)
  · intro h0
    rcases hact with hact | hact <;>
      (simp only [classify, hany, hcurF, hact, Bool.false_eq_true, if_false,
        h0]
       exact ⟨_, rfl, rfl⟩)

/-- C6 witness: the split shape for the concrete buy `c6Tx` with fee
30, and the unsplit shape for `c6TxNoFee` with the fee absent. -/
theorem c6_trade_split_witness :
    (∃ e s1 s2, classify c6Ctx c6Tx = [e] ∧
      e.subtransactions = [s1, s2] ∧
      s1.amount = JsNum.jadd e.amount (.num 30) ∧
      s2.amount = JsNum.jneg (.num 30) ∧
      JsNum.jadd s1.amount s2.amount = e.amount) ∧
    (∃ e, classify c6Ctx c6TxNoFee = [e] ∧ e.subtransactions = []) := by
  constructor
  · exact (c6_trade_split c6Ctx c6Tx (Or.inl rfl) (by simp [c6Ctx])
      (Or.inl rfl)).1 30 rfl (by norm_num)
  · exact (c6_trade_split c6Ctx c6TxNoFee (Or.inl rfl) (by simp [c6Ctx])
      (Or.inl rfl)).2 (by decide)

/-- C10: a currency conversion whose matching leg's amount column is
absent still classifies to one entry (neither skipped nor failed), and
that entry's amount is not a well-defined number: the from-leg branch
negates the missing value and stores `NaN`, the to-leg branch stores
the `undefined` value itself. -/
theorem c10_conversion_missing_amount (ctx : SyncContext) (tx : Trading212Transaction)
    (hact : tx.action = .CurrencyConversion)
    (hnew : ∀ t ∈ ctx.existing, t.import_id ≠ some (createImportId (txSeed tx)))
    (hcur : tx.totalCurrency = none ∨ tx.totalCurrency = some ctx.accountCurrency) :
    (tx.conversionFromCurrency = some ctx.accountCurrency →
     tx.conversionFromAmount = .undef →
      ∃ e, classify ctx tx = [e] ∧ e.amount = .nan ∧ ∀ v : ℚ, e.amount ≠ .num v) ∧
    (tx.conversionFromCurrency ≠ some ctx.accountCurrency →
     tx.conversionToCurrency = some ctx.accountCurrency →
     tx.conversionToAmount = .undef →
      ∃ e, classify ctx tx = [e] ∧ e.amount = .undef ∧ ∀ v : ℚ, e.amount ≠ .num v) := by
  have hany := classify_any_false ctx tx hnew
  have hcurF := classify_currency_false ctx tx hcur
  constructor
  · intro hfromc hfroma
    have hbeq : (tx.conversionFromCurrency == some ctx.accountCurrency) = true := by
      simp [hfromc]
    refine ⟨{ account_id := ctx.account_id, date := utcDate tx.timestamp,
              cleared := .cleared,
              amount := JsNum.jneg tx.conversionFromAmount,
              payee_name := some ("Exchanged to " ++ optStr tx.conversionToCurrency),
              memo := tx.notes, approved := some true,
              import_id := some (createImportId (txSeed tx)) }, ?_, ?_, ?_⟩
    · simp only [classify, hany, hcurF, hact, Bool.false_eq_true, if_false,
        hbeq, if_true]
    · show JsNum.jneg tx.conversionFromAmount = .nan
      rw [hfroma]
      rfl
    · intro v
      show JsNum.jneg tx.conversionFromAmount ≠ .num v
      rw [hfroma]
      simp [JsNum.jneg]
  · intro hfromc htoc htoa
    have hbeq1 : (tx.conversionFromCurrency == some ctx.accountCurrency) = false := by
      simpa using hfromc
    have hbeq2 : (tx.conversionToCurrency == some ctx.accountCurrency) = true := by
      simp [htoc]
    refine ⟨{ account_id := ctx.account_id, date := utcDate tx.timestamp,
              cleared := .cleared,
              amount := tx.conversionToAmount,
              payee_name := some ("Exchanged from " ++ optStr tx.conversionFromCurrency),
              memo := tx.notes, approved := some true,
              import_id := some (createImportId (txSeed tx)) }, ?_, ?_, ?_⟩
    · simp only [classify, hany, hcurF, hact, Bool.false_eq_true, if_false,
        hbeq1, hbeq2, if_true]
    · exact htoa
    · intro v
      show tx.conversionToAmount ≠ .num v
      rw [htoa]
      simp

/-- C10 witness: the two concrete conversions with missing matching-leg
amounts produce entries with `NaN` and `undefined` amounts. -/
theorem c10_conversion_missing_amount_witness :
    (∃ e, classify c10Ctx c10TxFrom = [e] ∧ e.amount = .nan ∧
      ∀ v : ℚ, e.amount ≠ .num v) ∧
    (∃ e, classify c10Ctx c10TxTo = [e] ∧ e.amount = .undef ∧
      ∀ v : ℚ, e.amount ≠ .num v) := by
  constructor
  · exact (c10_conversion_missing_amount c10Ctx c10TxFrom rfl (by simp [c10Ctx])
      (Or.inl rfl)).1 rfl rfl
  · exact (c10_conversion_missing_amount c10Ctx c10TxTo rfl (by simp [c10Ctx])
      (Or.inl rfl)).2 (by decide) rfl rfl

/-- Value of `parseDecM` on a plain `digits.digits` decimal. -/
theorem parseDecM_decimal (ds1 ds2 : List Char)
    (h1 : ds1 ≠ []) (hd1 : ∀ c ∈ ds1, c.isDigit = true)
    (hd2 : ∀ c ∈ ds2, c.isDigit = true) :
    parseDecM (ds1 ++ '.' :: ds2) =
      some ((digitsToNat ds1 : ℚ) + (digitsToNat ds2 : ℚ) / 10 ^ ds2.length) := by
  have ht1 : (ds1 ++ '.' :: ds2).takeWhile Char.isDigit = ds1 := by
    rw [takeWhile_all_append Char.isDigit ds1 ('.' :: ds2) hd1]
    simp [List.takeWhile_cons]
  have hne : ds1.isEmpty = false := by
    cases ds1 with
    | nil => exact absurd rfl h1
    | cons c t => rfl
  simp only [parseDecM, ht1, List.drop_left]
  rw [takeWhile_all Char.isDigit ds2 hd2]
  simp [hne]

/-- Value of `parseFloatJS` on a plain `digits.digits` decimal. -/
theorem parseFloatJS_decimal (ds1 ds2 : List Char)
    (h1 : ds1 ≠ []) (hd1 : ∀ c ∈ ds1, c.isDigit = true)
    (hd2 : ∀ c ∈ ds2, c.isDigit = true) :
    parseFloatJS (ds1 ++ '.' :: ds2) =
      .num ((digitsToNat ds1 : ℚ) + (digitsToNat ds2 : ℚ) / 10 ^ ds2.length) := by
  match ds1, h1 with
  | c :: t, _ =>
    have hc := hd1 c (by simp)
    obtain ⟨-, hm, hp⟩ := isDigit_ne c hc
    have hdec := parseDecM_decimal (c :: t) ds2 (by simp) hd1 hd2
    rw [List.cons_append] at hdec
    show parseFloatJS (c :: (t ++ '.' :: ds2)) = _
    simp only [parseFloatJS, if_neg hm, if_neg hp, hdec]

/-- C7 counterexample: the parsed transaction's `shareCount` for the
raw column value `"0.4"` is the plain number `2/5` (the schema uses
`parseFloat`), not the 10-decimal fixed-point integer
`parseT212StockQuantity("0.4") = 4000000000` the claim asserts. -/
theorem c7_sharecount_counterexample :
    schemaShareCount "0.4".data = .num (2 / 5) ∧
    parseT212StockQuantityL "0.4".data = some 4000000000 ∧
    jsOfOption (parseT212StockQuantityL "0.4".data) = .num 4000000000 ∧
    schemaShareCount "0.4".data ≠ jsOfOption (parseT212StockQuantityL "0.4".data) := by
  exact ⟨by decide, by decide, by decide, by decide⟩

/-- C7 (amended): the parsed transaction's `shareCount` is the plain
decimal value produced by `parseFloat` (the `optionalFloat` schema
transform), while the 10-decimal fixed-point representation — in units
of 1e-10 shares, i.e. the value scaled by `10 ^ 10` — is what
`parseT212StockQuantity` (`inputScale = 10`, `outputMultiplier = 1`)
computes; that codec, not the `shareCount` field, is the representation
the position reconciler uses for its position math. -/
theorem c7_sharecount_representation (ds1 ds2 : List Char)
    (h1 : ds1 ≠ []) (hd1 : ∀ c ∈ ds1, c.isDigit = true)
    (hd2 : ∀ c ∈ ds2, c.isDigit = true) (hlen : ds2.length ≤ 10) :
    ∃ q n, schemaShareCount (ds1 ++ '.' :: ds2) = JsNum.num q ∧
      parseT212StockQuantityL (ds1 ++ '.' :: ds2) = some n ∧
      (n : ℚ) = q * 10 ^ 10 ∧
      schemaShareCount (ds1 ++ '.' :: ds2) = parseFloatJS (ds1 ++ '.' :: ds2) := by
  have hnonempty : (ds1 ++ '.' :: ds2).isEmpty = false := by
    cases ds1 with
    | nil => exact absurd rfl h1
    | cons c t => rfl
  have hfloat := parseFloatJS_decimal ds1 ds2 h1 hd1 hd2
  have hfix := parseAmountL_decimal ds1 ds2 10 1 h1 hd1 hd2 hlen
  refine ⟨(digitsToNat ds1 : ℚ) + (digitsToNat ds2 : ℚ) / 10 ^ ds2.length,
    ((digitsToNat ds1 * 10 ^ 10 +
      digitsToNat ds2 * 10 ^ (10 - ds2.length) : ℕ) : ℤ) * 1, ?_, ?_, ?_, ?_⟩
  · rw [schemaShareCount, hnonempty]
    simp only [Bool.false_eq_true, if_false]
    exact hfloat
  · exact hfix
  · have hcomb : (10 : ℚ) ^ (10 - ds2.length) * 10 ^ ds2.length = 10 ^ 10 := by
      rw [← pow_add]
      congr 1
      omega
    have key : ((digitsToNat ds1 : ℚ) + (digitsToNat ds2 : ℚ) / 10 ^ ds2.length) *
        10 ^ 10 = (digitsToNat ds1 : ℚ) * 10 ^ 10 +
          (digitsToNat ds2 : ℚ) * 10 ^ (10 - ds2.length) := by
      rw [add_mul]
      congr 1
      rw [← hcomb]
      field_simp
      ring
    rw [key]
    push_cast
    ring
  · rw [schemaShareCount, hnonempty]
    simp only [Bool.false_eq_true, if_false]

/-- C7 witness: the amended statement evaluated at the raw share count
`"0.4"`. -/
theorem c7_sharecount_representation_witness :
    ∃ q n, schemaShareCount (['0'] ++ '.' :: ['4']) = JsNum.num q ∧
      parseT212StockQuantityL (['0'] ++ '.' :: ['4']) = some n ∧
      (n : ℚ) = q * 10 ^ 10 ∧
      schemaShareCount (['0'] ++ '.' :: ['4']) = parseFloatJS (['0'] ++ '.' :: ['4']) :=
  c7_sharecount_representation ['0'] ['4'] (by decide) (by decide) (by decide) (by decide)

end ClaimTheorems
